import Mathlib

/-!
Verification of the client-side bootstrap script `app/static/js/main.js` of
the Malaysia Energy Generator front end.  The JavaScript classes
(EventManager, StateManager, LoadingManager, ApiManager,
MalaysiaGeneratorApp) are shallowly embedded as pure Lean functions over
explicit state; DOM and network effects are recorded in an explicit trace
of `Effect` values, and the behaviour of external callbacks / fetch calls
is passed in as function parameters.
-/

/-- Kinds of toast shown by NotificationManager.show (`type` argument). -/
inductive NotifKind where
  | success
  | error
  | warning
  | info
deriving DecidableEq, Repr

/-- Shape of the JSON response to the POST `/generate/` call, as consumed by
`startGeneration`: a `success` boolean and an optional `error` string
(`none` models an absent/undefined field).  The remaining payload fields are
kept opaque as a key/value list; `startGeneration` stores the whole response
object as the current generation. -/
structure GenResponse where
  success : Bool
  error : Option String
  payload : List (String × String)
deriving DecidableEq, Repr

/-- Observable effects of the script: user notifications, HTTP attempts,
retry delays, loading-overlay bookkeeping, state writes, event emissions and
log lines at warn/error level (debug/info log lines are not modelled). -/
inductive Effect where
  | notify (kind : NotifKind) (message : String)
  | httpReq (method : String) (endpoint : String) (body : Option String)
  | delayMs (ms : Nat)
  | startLoad (id : String)
  | stopLoad (id : String)
  | setCurrentGen (r : GenResponse)
  | emitEv (name : String)
  | logWarn (msg : String)
  | logError (msg : String)
deriving DecidableEq, Repr

/-- Notifications contained in a trace, in order (kind and message). -/
def notifsOf (tr : List Effect) : List (NotifKind × String) :=
  tr.filterMap fun e =>
    match e with
    | .notify k m => some (k, m)
    | _ => none

/-- Warn-level log lines contained in a trace, in order. -/
def warnsOf (tr : List Effect) : List String :=
  tr.filterMap fun e =>
    match e with
    | .logWarn m => some m
    | _ => none

/-- HTTP requests contained in a trace, in order (method, endpoint, body). -/
def httpReqsOf (tr : List Effect) : List (String × String × Option String) :=
  tr.filterMap fun e =>
    match e with
    | .httpReq m ep b => some (m, ep, b)
    | _ => none

/-- Retry delays contained in a trace, in order (milliseconds). -/
def delaysOf (tr : List Effect) : List Nat :=
  tr.filterMap fun e =>
    match e with
    | .delayMs ms => some ms
    | _ => none

/-- `startLoad` effects contained in a trace, in order. -/
def startLoadsOf (tr : List Effect) : List String :=
  tr.filterMap fun e =>
    match e with
    | .startLoad i => some i
    | _ => none

/-- APP_CONFIG.api.retryAttempts (main.js line 25). -/
def retryAttempts : Nat := 3

/-! ## EventManager

A listener record as pushed by `EventManager.on`: the identity of the
callback function is modelled by a natural number (JavaScript compares
callbacks with reference equality in `off`), together with the optional
`context` object. -/

/-- One entry of the per-event listener array (`{ callback, context }`). -/
structure Listener where
  callback : Nat
  context : Option Nat
deriving DecidableEq, Repr

/-- A single invocation performed by `emit`: which callback was called, with
which bound context and which event data. -/
structure Invocation where
  callback : Nat
  context : Option Nat
  data : Nat
deriving DecidableEq, Repr

/-- EventManager.on restricted to one event type: pushes the new
`{callback, context}` record at the end of the listener array. -/
def evtOn (listeners : List Listener) (cb : Nat) (ctx : Option Nat) :
    List Listener :=
  listeners ++ [⟨cb, ctx⟩]

/-- EventManager.off restricted to one event type: `findIndex` on the
callback followed by `splice(index, 1)` removes the first entry whose
callback matches, and leaves the array unchanged when none matches. -/
def evtOff (listeners : List Listener) (cb : Nat) : List Listener :=
  match listeners with
  | [] => []
  | l :: rest => if l.callback = cb then rest else l :: evtOff rest cb

/-- EventManager.emit restricted to one event type.  `behave cb data`
describes what the callback with identity `cb` does on `data`: `.ok ()` for
a normal return, `.error e` for a thrown exception.  The source wraps each
call in try/catch, so a throwing listener only adds an error log line and
the iteration continues; `emit` itself always returns normally.  Returns
the invocations performed (in order) and the logged error messages. -/
def evtEmit (listeners : List Listener)
    (behave : Nat → Nat → Except String Unit) (data : Nat) :
    List Invocation × List String :=
  match listeners with
  | [] => ([], [])
  | l :: rest =>
    let r := evtEmit rest behave data
    match behave l.callback data with
    | .ok _ => (⟨l.callback, l.context, data⟩ :: r.1, r.2)
    | .error e => (⟨l.callback, l.context, data⟩ :: r.1, e :: r.2)

/-- Number of registrations of callback `cb` in a listener array. -/
def countCallback (listeners : List Listener) (cb : Nat) : Nat :=
  (listeners.filter fun l => l.callback = cb).length

/-! ## StateManager

JavaScript objects are modelled as association lists of string keys and
JSON values; lookup returns the first binding, and object literals have
distinct keys.  `setState` performs the spread merge
`this.state = { ...this.state, ...updates }`. -/

/-- JSON values, including nested objects (needed to state that the merge is
shallow, not deep). -/
inductive JVal where
  | str (s : String)
  | num (n : Int)
  | boolean (b : Bool)
  | null
  | obj (fields : List (String × JVal))

/-- A JavaScript object as an association list. -/
abbrev JObj := List (String × JVal)

/-- Property lookup: first binding of the key, if any. -/
def lookupKey (o : JObj) (k : String) : Option JVal :=
  match o with
  | [] => none
  | p :: rest => if p.1 = k then some p.2 else lookupKey rest k

/-- Whether the object has the key. -/
def hasKey (o : JObj) (k : String) : Bool :=
  (lookupKey o k).isSome

/-- The spread merge `{ ...old, ...updates }`: keys of `old` keep their
position but take the value from `updates` when `updates` also binds them;
keys only in `updates` are appended after.  Nested object values are
replaced wholesale, never merged recursively. -/
def spreadMerge (old updates : JObj) : JObj :=
  (old.map fun p =>
    match lookupKey updates p.1 with
    | some v => (p.1, v)
    | none => p) ++
  updates.filter fun p => !hasKey old p.1

/-- StateManager.setState: replaces the state with the spread merge of the
previous state and the updates (subscriber notification and the
`stateChanged` event do not alter the resulting state and are not
modelled here). -/
def setState (state updates : JObj) : JObj :=
  spreadMerge state updates

/-! ## LoadingManager

The manager after `initialize()` has run: the overlay element exists, so the
`if (this.overlay)` branches are taken.  `activeLoads` is a JS `Set` of load
ids, modelled as a duplicate-free list; `overlayVisible` models
`overlay.style.display` being `flex` rather than `none`; `loadingFlag`
models the `loading` key the manager writes into the global state; `message`
models the text of the `.loading-message` element. -/

/-- State of LoadingManager together with the overlay and the global
`loading` flag it maintains. -/
structure LoadingState where
  activeLoads : List String
  overlayVisible : Bool
  loadingFlag : Bool
  message : String
deriving DecidableEq, Repr

/-- `Set.add`: insert the id if not already present. -/
def setAdd (l : List String) (id : String) : List String :=
  if id ∈ l then l else l ++ [id]

/-- LoadingManager.startLoading: add the id to `activeLoads`, show the
overlay with the given message, and set the global `loading` flag to true
via `stateManager.setState({ loading: true })`. -/
def startLoading (s : LoadingState) (id : String) (msg : String) :
    LoadingState :=
  { activeLoads := setAdd s.activeLoads id
    overlayVisible := true
    loadingFlag := true
    message := msg }

/-- LoadingManager.stopLoading: remove the id from `activeLoads`
(`Set.delete`); only when no active load remains does it hide the overlay
and set the global `loading` flag to false. -/
def stopLoading (s : LoadingState) (id : String) : LoadingState :=
  if (s.activeLoads.filter fun x => x ≠ id).isEmpty then
    { s with activeLoads := s.activeLoads.filter fun x => x ≠ id,
             overlayVisible := false, loadingFlag := false }
  else
    { s with activeLoads := s.activeLoads.filter fun x => x ≠ id }

/-- LoadingManager.stopAllLoading: clear every active load, hide the
overlay, clear the global `loading` flag. -/
def stopAllLoading (s : LoadingState) : LoadingState :=
  { s with activeLoads := [], overlayVisible := false, loadingFlag := false }

/-! ## ApiManager

`fetch` outcomes are supplied as a function from the (1-based) attempt
number to either a parsed JSON response or a thrown error message (a
non-`ok` HTTP status, a network failure or the abort timeout all surface as
a thrown error in the source). -/

/-- Options of a request after merging with the defaults: the HTTP method
and the optional serialised body. -/
structure RequestOptions where
  method : String
  body : Option String
deriving DecidableEq, Repr

/-- The retry loop of ApiManager.request, counting down the remaining
attempts (`remaining + attempt = retryAttempts + 1` at every call, so
`remaining = 1` exactly when `attempt === this.retryAttempts`).  Each
iteration performs the fetch; on success it emits `apiSuccess` and returns
the data; on failure it logs a warning, and either — on the final attempt —
logs an error, emits `apiError` and rethrows, or waits the exponential
backoff delay `2^(attempt-1) * 1000` ms and retries. -/
def requestFrom (ep : String) (opts : RequestOptions)
    (fetchAt : Nat → Except String GenResponse) :
    Nat → Nat → List Effect × Except String GenResponse
  | _, 0 => ([], .error "")
  | attempt, remaining + 1 =>
    match fetchAt attempt with
    | .ok data =>
      ([.httpReq opts.method ep opts.body, .emitEv "apiSuccess"], .ok data)
    | .error e =>
      if remaining = 0 then
        ([.httpReq opts.method ep opts.body, .logWarn e, .logError e,
          .emitEv "apiError"], .error e)
      else
        let next := requestFrom ep opts fetchAt (attempt + 1) remaining
        ([.httpReq opts.method ep opts.body, .logWarn e,
          .delayMs (2 ^ (attempt - 1) * 1000)] ++ next.1, next.2)

/-- ApiManager.request: run the retry loop starting at attempt 1 with
`retryAttempts` attempts available. -/
def apiRequest (ep : String) (opts : RequestOptions)
    (fetchAt : Nat → Except String GenResponse) :
    List Effect × Except String GenResponse :=
  requestFrom ep opts fetchAt 1 retryAttempts

/-- Serialisation of a flat form-data object, standing for
`JSON.stringify(data)` (string escaping inside keys and values is not
modelled). -/
def jsonStringify (fields : List (String × String)) : String :=
  "\x7b" ++
    String.intercalate ","
      (fields.map fun p => "\"" ++ p.1 ++ "\":\"" ++ p.2 ++ "\"") ++
  "\x7d"

/-- ApiManager.post: a request with method POST and the JSON-serialised
data as body. -/
def apiPost (ep : String) (data : List (String × String))
    (fetchAt : Nat → Except String GenResponse) :
    List Effect × Except String GenResponse :=
  apiRequest ep { method := "POST", body := some (jsonStringify data) }
    fetchAt

/-! ## MalaysiaGeneratorApp.startGeneration

`getFormData` and `validateForm` are not defined in `main.js` (they come
from the dynamically loaded form-validator module).  Modelled from the
spec: validation of the collected form fields yields a result whose `valid`
boolean decides whether the API is called, so `startGeneration` takes the
collected form data and that boolean as parameters. -/

/-- The message of the error thrown on an unsuccessful response:
`result.error || 'Erreur de génération'` — the default replaces an absent
or empty (falsy) `error` string. -/
def genErrorMessage (r : GenResponse) : String :=
  match r.error with
  | some e => if e = "" then "Erreur de génération" else e
  | none => "Erreur de génération"

/-- MalaysiaGeneratorApp.startGeneration, returning the trace of its
effects.  On invalid form data it shows an error toast and returns early —
but the `finally` clause still runs `stopLoading('main_generation')`.
Otherwise it starts the loading overlay, posts the form data to
`/generate/`, and reacts to the outcome: a response with `success: true`
yields a success toast, stores the response as the current generation and
emits `generationCompleted`; a response with `success: false` throws
`result.error || 'Erreur de génération'`, and any error reaching the catch
(that one, or the error rethrown by the exhausted retry loop) is logged and
shown as a single error toast; the `finally` clause stops the loading. -/
def startGeneration (valid : Bool) (formData : List (String × String))
    (fetchAt : Nat → Except String GenResponse) : List Effect :=
  if valid = false then
    [.notify .error "Veuillez corriger les erreurs du formulaire",
     .stopLoad "main_generation"]
  else
    let res := apiPost "/generate/" formData fetchAt
    [.startLoad "main_generation"] ++ res.1 ++
      (match res.2 with
       | .ok r =>
         if r.success then
           [.notify .success "Génération terminée avec succès",
            .setCurrentGen r, .emitEv "generationCompleted"]
         else
           [.logError ("Erreur lors de la génération: " ++ genErrorMessage r),
            .notify .error ("Erreur: " ++ genErrorMessage r)]
       | .error e =>
         [.logError ("Erreur lors de la génération: " ++ e),
          .notify .error ("Erreur: " ++ e)]) ++
      [.stopLoad "main_generation"]

/-! ## MalaysiaGeneratorApp.loadModules / initialize -/

/-- What happens when `loadModule(name, path)` injects the script tag:
either the script loads and registers `window[name]` (the promise resolves
with the module), or the script loads but registers nothing (rejected with
`Module <name> non trouvé après chargement`), or the script element errors
(rejected with `Erreur lors du chargement de <path>`). -/
inductive ModuleOutcome where
  | registered
  | missingGlobal
  | scriptError
deriving DecidableEq, Repr

/-- MalaysiaGeneratorApp.loadModule as an `Except`: the name of the module
on success, the rejection message on failure. -/
def loadModule (name : String) (path : String) (oc : ModuleOutcome) :
    Except String String :=
  match oc with
  | .registered => .ok name
  | .missingGlobal => .error ("Module " ++ name ++ " non trouvé après chargement")
  | .scriptError => .error ("Erreur lors du chargement de " ++ path)

/-- The per-module loop of loadModules: each `loadModule` call sits in its
own try/catch, so a failure only logs a warning and the loop continues with
the remaining modules.  Returns the names stored into `this.modules`
(in order) and the trace of warnings. -/
def loadModulesGo (mods : List (String × String × ModuleOutcome)) :
    List String × List Effect :=
  match mods with
  | [] => ([], [])
  | (name, path, oc) :: rest =>
    let r := loadModulesGo rest
    match loadModule name path oc with
    | .ok n => (n :: r.1, r.2)
    | .error e =>
      (r.1, .logWarn ("Impossible de charger le module " ++ name ++ ": " ++ e)
              :: r.2)

/-- MalaysiaGeneratorApp.loadModules: wraps the loop in
`startLoading('modules_loading') … finally stopLoading('modules_loading')`;
nothing in the loop body can throw, so the function always completes. -/
def loadModules (mods : List (String × String × ModuleOutcome)) :
    List String × List Effect :=
  let r := loadModulesGo mods
  (r.1, [.startLoad "modules_loading"] ++ r.2 ++ [.stopLoad "modules_loading"])

/-- Result of MalaysiaGeneratorApp.initialize: whether the app was marked
ready (`this.initialized = true` and `setState({ initialized: true })`),
the loaded modules, and the effect trace. -/
structure InitResult where
  ready : Bool
  modules : List String
  trace : List Effect
deriving DecidableEq, Repr

/-- MalaysiaGeneratorApp.initialize: initialize the base managers, load the
modules, attach listeners, mark the app ready, show the success toast and
emit `appInitialized`.  The catch branch (error toast plus rethrow) is
unreachable because `loadModules` and the listener setup cannot throw. -/
def appInitialize (mods : List (String × String × ModuleOutcome)) :
    InitResult :=
  let lm := loadModules mods
  { ready := true
    modules := lm.1
    trace := lm.2 ++
      [.notify .success "Application chargée avec succès",
       .emitEv "appInitialized"] }

/-! ## Helper lemmas -/

theorem lookupKey_append (a b : JObj) (k : String) :
    lookupKey (a ++ b) k =
      match lookupKey a k with
      | some v => some v
      | none => lookupKey b k := by
  induction a with
  | nil => simp [lookupKey]
  | cons p rest ih =>
    by_cases h : p.1 = k <;> simp [lookupKey, h, ih]

theorem lookupKey_map_update (old u : JObj) (k : String) :
    lookupKey
      (old.map fun p =>
        match lookupKey u p.1 with
        | some v => (p.1, v)
        | none => p) k =
      match lookupKey old k with
      | none => none
      | some v =>
        match lookupKey u k with
        | some w => some w
        | none => some v := by
  induction old with
  | nil => simp [lookupKey]
  | cons p rest ih =>
    by_cases h : p.1 = k
    · subst h
      cases hu : lookupKey u p.1 <;> simp [lookupKey, hu]
    · cases hu : lookupKey u p.1 <;> simp [lookupKey, h, hu, ih]

theorem lookupKey_filter_key (u : JObj) (q : String → Bool) (k : String) :
    lookupKey (u.filter fun p => q p.1) k =
      if q k then lookupKey u k else none := by
  induction u with
  | nil => simp [lookupKey]
  | cons p rest ih =>
    by_cases h : p.1 = k
    · subst h
      cases hq : q p.1 <;> simp [lookupKey, hq, ih]
    · cases hq : q p.1 <;> simp [lookupKey, h, hq, ih]

/-- The invariant LoadingManager maintains between the overlay, the global
`loading` flag and the set of active loads. -/
def loadingInv (s : LoadingState) : Prop :=
  (s.overlayVisible = false ∧ s.loadingFlag = false) ↔ s.activeLoads = []

theorem setAdd_ne_nil (l : List String) (id : String) :
    setAdd l id ≠ [] := by
  unfold setAdd
  split
  · rename_i h
    exact List.ne_nil_of_mem h
  · simp

theorem evtEmit_invocations (L : List Listener)
    (behave : Nat → Nat → Except String Unit) (d : Nat) :
    (evtEmit L behave d).1 =
      L.map fun l => ⟨l.callback, l.context, d⟩ := by
  induction L with
  | nil => simp [evtEmit]
  | cons l rest ih =>
    cases hb : behave l.callback d <;> simp [evtEmit, hb, ih]

theorem evtEmit_errorLog (L : List Listener)
    (behave : Nat → Nat → Except String Unit) (d : Nat) :
    (evtEmit L behave d).2 =
      L.filterMap fun l =>
        match behave l.callback d with
        | .ok _ => none
        | .error e => some e := by
  induction L with
  | nil => simp [evtEmit]
  | cons l rest ih =>
    cases hb : behave l.callback d <;> simp [evtEmit, hb, ih]

theorem countCallback_evtOff (L : List Listener) (cb : Nat) :
    countCallback (evtOff L cb) cb = countCallback L cb - 1 := by
  induction L with
  | nil => simp [evtOff, countCallback]
  | cons l rest ih =>
    by_cases h : l.callback = cb <;>
      simp [evtOff, countCallback, h, ih, Nat.succ_sub_one]
    · simpa [countCallback] using ih

theorem evtOff_not_registered (L : List Listener) (cb : Nat)
    (h : countCallback L cb = 0) : evtOff L cb = L := by
  induction L with
  | nil => rfl
  | cons l rest ih =>
    simp [countCallback, List.filter] at h
    by_cases hl : l.callback = cb
    · simp [hl] at h
    · simp [evtOff, hl]
      exact ih (by simpa [countCallback, hl] using h)

theorem notifsOf_append (a b : List Effect) :
    notifsOf (a ++ b) = notifsOf a ++ notifsOf b :=
  List.filterMap_append a b _

theorem httpReqsOf_append (a b : List Effect) :
    httpReqsOf (a ++ b) = httpReqsOf a ++ httpReqsOf b :=
  List.filterMap_append a b _

theorem warnsOf_append (a b : List Effect) :
    warnsOf (a ++ b) = warnsOf a ++ warnsOf b :=
  List.filterMap_append a b _

/-- Every HTTP request recorded by the retry loop goes to the requested
endpoint with the requested options, at least one request is made, and the
loop itself shows no notification and logs its per-attempt failures only as
warnings (the final error log aside). -/
theorem requestFrom_trace (ep : String) (opts : RequestOptions)
    (fetchAt : Nat → Except String GenResponse) :
    ∀ remaining attempt, remaining ≠ 0 →
      httpReqsOf (requestFrom ep opts fetchAt attempt remaining).1 ≠ [] ∧
      (∀ p ∈ httpReqsOf (requestFrom ep opts fetchAt attempt remaining).1,
        p = (opts.method, ep, opts.body)) ∧
      notifsOf (requestFrom ep opts fetchAt attempt remaining).1 = [] := by
  intro remaining
  induction remaining with
  | zero => intro attempt h; exact absurd rfl h
  | succ n ih =>
    intro attempt _
    simp only [requestFrom]
    cases hf : fetchAt attempt with
    | ok data => simp [httpReqsOf, notifsOf]
    | error e =>
      by_cases hn : n = 0
      · subst hn
        simp [httpReqsOf, notifsOf]
      · have ihn := ih attempt.succ hn
        simp only [hn, if_false]
        refine ⟨?_, ?_, ?_⟩
        · simp [httpReqsOf]
        · intro p hp
          simp [httpReqsOf] at hp
          rcases hp with hp | hp
          · simp [hp]
          · exact ihn.2.1 p (by simpa [httpReqsOf] using hp)
        · simp only [notifsOf] at ihn ⊢
          simpa using ihn.2.2

/-! ## Claim theorems -/

/-- C1: a form submission that passes validation starts the generation:
every HTTP request issued goes to POST `/generate/` with the JSON body
built from the form fields, at least one such request is issued, and
whatever the outcome (success response, unsuccessful response or exhausted
retries), exactly one notification — a success or an error toast — reports
it to the user. -/
theorem c1_valid_form_posts_and_reports
    (formData : List (String × String))
    (fetchAt : Nat → Except String GenResponse) :
    httpReqsOf (startGeneration true formData fetchAt) ≠ [] ∧
    (∀ p ∈ httpReqsOf (startGeneration true formData fetchAt),
      p = ("POST", "/generate/", some (jsonStringify formData))) ∧
    ∃ k m, notifsOf (startGeneration true formData fetchAt) = [(k, m)] ∧
      (k = NotifKind.success ∨ k = NotifKind.error) := by
  obtain ⟨hne, hall, hnotif⟩ := requestFrom_trace "/generate/"
    ⟨"POST", some (jsonStringify formData)⟩ fetchAt 3 1 (by norm_num)
  simp only [startGeneration, apiPost, apiRequest, retryAttempts]
  rw [if_neg (by decide : ¬(true = false))]
  cases hT : requestFrom "/generate/"
      ⟨"POST", some (jsonStringify formData)⟩ fetchAt 1 3 with
  | mk tr res =>
    rw [hT] at hne hall hnotif
    have hne' : List.filterMap
        (fun e =>
          match e with
          | Effect.httpReq m ep b => some (m, ep, b)
          | _ => none) tr ≠ [] := by simpa [httpReqsOf] using hne
    have hnotif' : List.filterMap
        (fun e =>
          match e with
          | Effect.notify k m => some (k, m)
          | _ => none) tr = [] := by simpa [notifsOf] using hnotif
    cases res with
    | ok r =>
      by_cases hs : r.success
      · refine ⟨?_, ?_,
          NotifKind.success, "Génération terminée avec succès", ?_,
          Or.inl rfl⟩
        · simpa [httpReqsOf, hs] using hne'
        · intro p hp
          simp [httpReqsOf, hs] at hp
          exact hall p (by simpa [httpReqsOf] using hp)
        · simp [notifsOf, hs, hnotif']
      · refine ⟨?_, ?_,
          NotifKind.error, "Erreur: " ++ genErrorMessage r, ?_,
          Or.inr rfl⟩
        · simpa [httpReqsOf, hs] using hne'
        · intro p hp
          simp [httpReqsOf, hs] at hp
          exact hall p (by simpa [httpReqsOf] using hp)
        · simp [notifsOf, hs, hnotif']
    | error e =>
      refine ⟨?_, ?_, NotifKind.error, "Erreur: " ++ e, ?_, Or.inr rfl⟩
      · simpa [httpReqsOf] using hne'
      · intro p hp
        simp [httpReqsOf] at hp
        exact hall p (by simpa [httpReqsOf] using hp)
      · simp [notifsOf, hnotif']

/-- C3: for a parsed JSON response to the `/generate/` POST, a `success:
true` response yields the single success toast and the response object is
stored as the current generation; a `success: false` response yields a
single error toast whose message is `Erreur:` followed by the response's
`error` string (with a default French message substituted when the `error`
string is absent or empty). -/
theorem c3_response_success_flag (formData : List (String × String))
    (fetchAt : Nat → Except String GenResponse) (r : GenResponse)
    (h : (apiPost "/generate/" formData fetchAt).2 = Except.ok r) :
    (r.success = true →
      notifsOf (startGeneration true formData fetchAt) =
        [(NotifKind.success, "Génération terminée avec succès")] ∧
      Effect.setCurrentGen r ∈ startGeneration true formData fetchAt) ∧
    (r.success = false →
      notifsOf (startGeneration true formData fetchAt) =
        [(NotifKind.error, "Erreur: " ++ genErrorMessage r)] ∧
      ∀ e, r.error = some e → e ≠ "" → genErrorMessage r = e) := by
  obtain ⟨hne, hall, hnotif⟩ := requestFrom_trace "/generate/"
    ⟨"POST", some (jsonStringify formData)⟩ fetchAt 3 1 (by norm_num)
  simp only [apiPost, apiRequest, retryAttempts] at h
  simp only [startGeneration, apiPost, apiRequest, retryAttempts]
  rw [if_neg (by decide : ¬(true = false))]
  cases hT : requestFrom "/generate/"
      ⟨"POST", some (jsonStringify formData)⟩ fetchAt 1 3 with
  | mk tr res =>
    rw [hT] at hne hall hnotif h
    have hres : res = Except.ok r := h
    subst hres
    have hnotif' : List.filterMap
        (fun e =>
          match e with
          | Effect.notify k m => some (k, m)
          | _ => none) tr = [] := by simpa [notifsOf] using hnotif
    constructor
    · intro hs
      refine ⟨by simp [notifsOf, hs, hnotif'], ?_⟩
      simp [hs]
    · intro hs
      refine ⟨by simp [notifsOf, hs, hnotif'], ?_⟩
      intro e he hemp
      simp [genErrorMessage, he, hemp]

/-- C3 witness: a first-attempt response with `success: true` produces the
success toast and is stored; the error-branch clauses hold vacuously or by
computation at this input. -/
theorem c3_response_success_flag_witness :
    (apiPost "/generate/"  [("rows", "10")]
        (fun _ => Except.ok ⟨true, none, [("f", "v")]⟩)).2 =
      Except.ok ⟨true, none, [("f", "v")]⟩ ∧
    ((⟨true, none, [("f", "v")]⟩ : GenResponse).success = true →
      notifsOf (startGeneration true [("rows", "10")]
          (fun _ => Except.ok ⟨true, none, [("f", "v")]⟩)) =
        [(NotifKind.success, "Génération terminée avec succès")] ∧
      Effect.setCurrentGen ⟨true, none, [("f", "v")]⟩ ∈
        startGeneration true [("rows", "10")]
          (fun _ => Except.ok ⟨true, none, [("f", "v")]⟩)) ∧
    ((⟨true, none, [("f", "v")]⟩ : GenResponse).success = false →
      notifsOf (startGeneration true [("rows", "10")]
          (fun _ => Except.ok ⟨true, none, [("f", "v")]⟩)) =
        [(NotifKind.error,
          "Erreur: " ++ genErrorMessage ⟨true, none, [("f", "v")]⟩)] ∧
      ∀ e, (⟨true, none, [("f", "v")]⟩ : GenResponse).error = some e →
        e ≠ "" → genErrorMessage ⟨true, none, [("f", "v")]⟩ = e) :=
  ⟨rfl,
    (c3_response_success_flag [("rows", "10")]
      (fun _ => Except.ok ⟨true, none, [("f", "v")]⟩)
      ⟨true, none, [("f", "v")]⟩ rfl).1,
    (c3_response_success_flag [("rows", "10")]
      (fun _ => Except.ok ⟨true, none, [("f", "v")]⟩)
      ⟨true, none, [("f", "v")]⟩ rfl).2⟩

/-- C5: a form submission that fails validation only shows the error toast
(and runs the `finally` stopLoading): no HTTP request is issued and no
loading is started. -/
theorem c5_invalid_form_no_api_call (formData : List (String × String))
    (fetchAt : Nat → Except String GenResponse) :
    startGeneration false formData fetchAt =
      [.notify .error "Veuillez corriger les erreurs du formulaire",
       .stopLoad "main_generation"] ∧
    httpReqsOf (startGeneration false formData fetchAt) = [] ∧
    startLoadsOf (startGeneration false formData fetchAt) = [] ∧
    notifsOf (startGeneration false formData fetchAt) =
      [(NotifKind.error, "Veuillez corriger les erreurs du formulaire")] :=
  ⟨rfl, rfl, rfl, rfl⟩

/-- C6: when all three fetch attempts of a generation request fail, the
user sees exactly one notification — the single error toast for the
propagated final error — while the per-attempt failures are only logged
as warnings. -/
theorem c6_three_failures_one_error_toast
    (formData : List (String × String))
    (fetchAt : Nat → Except String GenResponse) (e1 e2 e3 : String)
    (h1 : fetchAt 1 = .error e1) (h2 : fetchAt 2 = .error e2)
    (h3 : fetchAt 3 = .error e3) :
    notifsOf (startGeneration true formData fetchAt) =
      [(NotifKind.error, "Erreur: " ++ e3)] ∧
    warnsOf (startGeneration true formData fetchAt) = [e1, e2, e3] := by
  have hreq : requestFrom "/generate/"
      ⟨"POST", some (jsonStringify formData)⟩ fetchAt 1 3 =
      ([.httpReq "POST" "/generate/" (some (jsonStringify formData)),
        .logWarn e1, .delayMs 1000,
        .httpReq "POST" "/generate/" (some (jsonStringify formData)),
        .logWarn e2, .delayMs 2000,
        .httpReq "POST" "/generate/" (some (jsonStringify formData)),
        .logWarn e3, .logError e3, .emitEv "apiError"], .error e3) := by
    rw [requestFrom, h1]
    norm_num
    rw [requestFrom, h2]
    norm_num
    rw [requestFrom, h3]
    norm_num
  simp only [startGeneration, apiPost, apiRequest, retryAttempts]
  rw [if_neg (by decide : ¬(true = false)), hreq]
  constructor
  · simp [notifsOf]
  · simp [warnsOf]

/-- C6 witness: with every fetch attempt failing with `boom`, the
generation run shows exactly one error toast and logs three warnings. -/
theorem c6_three_failures_one_error_toast_witness :
    (fun _ : Nat => (Except.error "boom" : Except String GenResponse)) 1 =
        Except.error "boom" ∧
    (fun _ : Nat => (Except.error "boom" : Except String GenResponse)) 2 =
        Except.error "boom" ∧
    (fun _ : Nat => (Except.error "boom" : Except String GenResponse)) 3 =
        Except.error "boom" ∧
    (notifsOf (startGeneration true [("rows", "10")]
        (fun _ => Except.error "boom")) =
      [(NotifKind.error, "Erreur: " ++ "boom")] ∧
     warnsOf (startGeneration true [("rows", "10")]
        (fun _ => Except.error "boom")) = ["boom", "boom", "boom"]) :=
  ⟨rfl, rfl, rfl,
    c6_three_failures_one_error_toast [("rows", "10")]
      (fun _ => Except.error "boom") "boom" "boom" "boom" rfl rfl rfl⟩

/-- C4: StateManager.setState replaces the state with the shallow merge of
the old state and the update object: a key bound by the update takes its
new value, and a key of the old state not bound by the update keeps its
previous value — even when both values are nested objects, the update's
object replaces the old one wholesale (no deep merge). -/
theorem c4_setState_shallow_merge (old u : JObj) (k1 k2 : String)
    (h1 : hasKey u k1 = true) (h2 : hasKey u k2 = false) :
    lookupKey (setState old u) k1 = lookupKey u k1 ∧
    lookupKey (setState old u) k2 = lookupKey old k2 := by
  unfold setState spreadMerge
  constructor
  · rw [lookupKey_append, lookupKey_map_update,
      lookupKey_filter_key u (fun x => !hasKey old x) k1]
    cases ho : lookupKey old k1 with
    | none =>
      simp [hasKey, ho]
    | some v =>
      cases hu : lookupKey u k1 with
      | none => simp [hasKey, hu] at h1
      | some w => simp [hu]
  · rw [lookupKey_append, lookupKey_map_update,
      lookupKey_filter_key u (fun x => !hasKey old x) k2]
    have hu : lookupKey u k2 = none := by
      cases hu : lookupKey u k2 with
      | none => rfl
      | some w => simp [hasKey, hu] at h2
    cases ho : lookupKey old k2 with
    | none => simp [hasKey, ho, hu]
    | some v => simp [hu]

/-- C4 witness: a concrete merge in which the nested object under `n` is
replaced wholesale by the update's object and the untouched key `a` keeps
its value. -/
theorem c4_setState_shallow_merge_witness :
    hasKey [("n", JVal.obj [("x", JVal.num 9)]), ("b", JVal.str "new")]
        "n" = true ∧
    hasKey [("n", JVal.obj [("x", JVal.num 9)]), ("b", JVal.str "new")]
        "a" = false ∧
    (lookupKey
        (setState
          [("a", JVal.num 1),
           ("n", JVal.obj [("x", JVal.num 1), ("y", JVal.num 2)])]
          [("n", JVal.obj [("x", JVal.num 9)]), ("b", JVal.str "new")])
        "n" =
      lookupKey [("n", JVal.obj [("x", JVal.num 9)]), ("b", JVal.str "new")]
        "n" ∧
     lookupKey
        (setState
          [("a", JVal.num 1),
           ("n", JVal.obj [("x", JVal.num 1), ("y", JVal.num 2)])]
          [("n", JVal.obj [("x", JVal.num 9)]), ("b", JVal.str "new")])
        "a" =
      lookupKey
        [("a", JVal.num 1),
         ("n", JVal.obj [("x", JVal.num 1), ("y", JVal.num 2)])] "a") :=
  ⟨rfl, rfl,
    c4_setState_shallow_merge
      [("a", JVal.num 1),
       ("n", JVal.obj [("x", JVal.num 1), ("y", JVal.num 2)])]
      [("n", JVal.obj [("x", JVal.num 9)]), ("b", JVal.str "new")]
      "n" "a" rfl rfl⟩

/-- C8: from any LoadingManager state satisfying the invariant "overlay
hidden and loading flag cleared exactly when no load is active", both
startLoading and stopLoading preserve the invariant; moreover stopLoading
leaves the overlay and the flag untouched while another load id remains
active, and hides the overlay and clears the flag when the last active
load is stopped. -/
theorem c8_loading_overlay_invariant (s : LoadingState) (id msg : String)
    (h : loadingInv s) :
    loadingInv (startLoading s id msg) ∧
    loadingInv (stopLoading s id) ∧
    ((stopLoading s id).activeLoads ≠ [] →
      (stopLoading s id).overlayVisible = s.overlayVisible ∧
      (stopLoading s id).loadingFlag = s.loadingFlag) ∧
    ((stopLoading s id).activeLoads = [] →
      (stopLoading s id).overlayVisible = false ∧
      (stopLoading s id).loadingFlag = false) := by
  refine ⟨?_, ?_, ?_, ?_⟩
  · have := setAdd_ne_nil s.activeLoads id
    simp [loadingInv, startLoading, this]
  · unfold stopLoading
    split
    · rename_i he
      have hfil : (s.activeLoads.filter fun x => x ≠ id) = [] :=
        List.isEmpty_iff.mp he
      simp only [loadingInv, hfil]
      simp
    · rename_i he
      have hrest : (s.activeLoads.filter fun x => x ≠ id) ≠ [] := by
        simpa [List.isEmpty_iff] using he
      have hact : s.activeLoads ≠ [] := by
        intro hnil
        simp [hnil] at hrest
      simp only [loadingInv] at h ⊢
      constructor
      · intro hc
        exact absurd (h.mp hc) hact
      · intro hc
        exact absurd hc hrest
  · unfold stopLoading
    split
    · rename_i he
      intro hne
      exact absurd (List.isEmpty_iff.mp he) hne
    · intro _
      exact ⟨rfl, rfl⟩
  · unfold stopLoading
    split
    · intro _
      exact ⟨rfl, rfl⟩
    · rename_i he
      intro hnil
      exact absurd hnil (by simpa [List.isEmpty_iff] using he)

/-- C8 witness: with loads `a` and `b` active, stopping `a` keeps the
overlay visible and the flag set; the invariant is preserved. -/
theorem c8_loading_overlay_invariant_witness :
    loadingInv ⟨["a", "b"], true, true, "m"⟩ ∧
    (loadingInv (startLoading ⟨["a", "b"], true, true, "m"⟩ "a" "msg") ∧
     loadingInv (stopLoading ⟨["a", "b"], true, true, "m"⟩ "a") ∧
     ((stopLoading ⟨["a", "b"], true, true, "m"⟩ "a").activeLoads ≠ [] →
       (stopLoading ⟨["a", "b"], true, true, "m"⟩ "a").overlayVisible =
         (⟨["a", "b"], true, true, "m"⟩ : LoadingState).overlayVisible ∧
       (stopLoading ⟨["a", "b"], true, true, "m"⟩ "a").loadingFlag =
         (⟨["a", "b"], true, true, "m"⟩ : LoadingState).loadingFlag) ∧
     ((stopLoading ⟨["a", "b"], true, true, "m"⟩ "a").activeLoads = [] →
       (stopLoading ⟨["a", "b"], true, true, "m"⟩ "a").overlayVisible =
         false ∧
       (stopLoading ⟨["a", "b"], true, true, "m"⟩ "a").loadingFlag =
         false)) :=
  ⟨by simp [loadingInv],
    c8_loading_overlay_invariant ⟨["a", "b"], true, true, "m"⟩ "a" "msg"
      (by simp [loadingInv])⟩

/-- C9: EventManager.emit invokes every registered listener for the event,
in registration order, with the event data and its bound context, and the
exceptions of throwing listeners are only logged: every listener is invoked
no matter which other listeners throw, and emit returns normally. -/
theorem c9_emit_invokes_all_in_order (L : List Listener)
    (behave : Nat → Nat → Except String Unit) (d : Nat) :
    (evtEmit L behave d).1 =
      (L.map fun l => ⟨l.callback, l.context, d⟩) ∧
    (evtEmit L behave d).2 =
      (L.filterMap fun l =>
        match behave l.callback d with
        | .ok _ => none
        | .error e => some e) :=
  ⟨evtEmit_invocations L behave d, evtEmit_errorLog L behave d⟩

/-- C10: EventManager.off removes only the first matching registration of a
callback: from a list with two registrations of the callback, one off leaves
exactly one, and emit then invokes the callback exactly once; off with a
callback that was never registered leaves the listener list unchanged. -/
theorem c10_off_removes_first_match (L L2 : List Listener) (cb : Nat)
    (behave : Nat → Nat → Except String Unit) (d : Nat)
    (h2 : countCallback L cb = 2) (h0 : countCallback L2 cb = 0) :
    countCallback (evtOff L cb) cb = 1 ∧
    ((evtEmit (evtOff L cb) behave d).1.filter
        fun i => i.callback = cb).length = 1 ∧
    evtOff L2 cb = L2 := by
  have hc : countCallback (evtOff L cb) cb = 1 := by
    rw [countCallback_evtOff, h2]
  refine ⟨hc, ?_, evtOff_not_registered L2 cb h0⟩
  rw [evtEmit_invocations]
  have : ((evtOff L cb).map fun l =>
      (⟨l.callback, l.context, d⟩ : Invocation)).filter
        (fun i => i.callback = cb) =
      ((evtOff L cb).filter fun l => l.callback = cb).map
        fun l => (⟨l.callback, l.context, d⟩ : Invocation) := by
    induction evtOff L cb with
    | nil => rfl
    | cons l rest ih =>
      by_cases hl : l.callback = cb <;> simp [hl, ih]
  rw [this, List.length_map]
  exact hc

/-- C2: ApiManager.request retries a failing call up to the configured 3
attempts with exponential backoff delays of 2^(attempt-1)*1000 ms between
consecutive attempts, and after the third failed attempt rethrows the last
error; a call whose retry succeeds stops retrying at the successful
attempt. -/
theorem c2_request_retry_backoff (ep : String) (opts : RequestOptions)
    (fetchAt g : Nat → Except String GenResponse) (r : GenResponse)
    (e1 e2 e3 : String)
    (h1 : fetchAt 1 = .error e1) (h2 : fetchAt 2 = .error e2)
    (h3 : fetchAt 3 = .error e3)
    (h4 : g 1 = .error e1) (h5 : g 2 = .ok r) :
    apiRequest ep opts fetchAt =
      ([.httpReq opts.method ep opts.body, .logWarn e1, .delayMs 1000,
        .httpReq opts.method ep opts.body, .logWarn e2, .delayMs 2000,
        .httpReq opts.method ep opts.body, .logWarn e3, .logError e3,
        .emitEv "apiError"], .error e3) ∧
    apiRequest ep opts g =
      ([.httpReq opts.method ep opts.body, .logWarn e1, .delayMs 1000,
        .httpReq opts.method ep opts.body, .emitEv "apiSuccess"],
       .ok r) := by
  constructor
  · show requestFrom ep opts fetchAt 1 3 = _
    rw [requestFrom, h1]
    norm_num
    rw [requestFrom, h2]
    norm_num
    rw [requestFrom, h3]
    norm_num
  · show requestFrom ep opts g 1 3 = _
    rw [requestFrom, h4]
    norm_num
    rw [requestFrom, h5]
    exact ⟨rfl, rfl⟩

/-- C2 witness: a fetch that always fails with message `boom` exhausts the
three attempts with delays 1000 ms and 2000 ms and propagates `boom`; a
fetch that fails once and then delivers a response returns it after one
retry. -/
theorem c2_request_retry_backoff_witness :
    (fun _ : Nat => (Except.error "boom" : Except String GenResponse)) 1 =
        Except.error "boom" ∧
    (fun _ : Nat => (Except.error "boom" : Except String GenResponse)) 2 =
        Except.error "boom" ∧
    (fun _ : Nat => (Except.error "boom" : Except String GenResponse)) 3 =
        Except.error "boom" ∧
    (fun n : Nat =>
        if n = 1 then (Except.error "boom" : Except String GenResponse)
        else Except.ok ⟨true, none, []⟩) 1 = Except.error "boom" ∧
    (fun n : Nat =>
        if n = 1 then (Except.error "boom" : Except String GenResponse)
        else Except.ok ⟨true, none, []⟩) 2 = Except.ok ⟨true, none, []⟩ ∧
    (apiRequest "/generate/" ⟨"POST", some "body"⟩
        (fun _ => Except.error "boom") =
      ([.httpReq "POST" "/generate/" (some "body"), .logWarn "boom",
        .delayMs 1000,
        .httpReq "POST" "/generate/" (some "body"), .logWarn "boom",
        .delayMs 2000,
        .httpReq "POST" "/generate/" (some "body"), .logWarn "boom",
        .logError "boom", .emitEv "apiError"], .error "boom") ∧
     apiRequest "/generate/" ⟨"POST", some "body"⟩
        (fun n =>
          if n = 1 then Except.error "boom"
          else Except.ok ⟨true, none, []⟩) =
      ([.httpReq "POST" "/generate/" (some "body"), .logWarn "boom",
        .delayMs 1000,
        .httpReq "POST" "/generate/" (some "body"), .emitEv "apiSuccess"],
       .ok ⟨true, none, []⟩)) :=
  ⟨rfl, rfl, rfl, rfl, rfl,
    c2_request_retry_backoff "/generate/" ⟨"POST", some "body"⟩
      (fun _ => Except.error "boom")
      (fun n =>
        if n = 1 then Except.error "boom" else Except.ok ⟨true, none, []⟩)
      ⟨true, none, []⟩ "boom" "boom" "boom" rfl rfl rfl rfl rfl⟩

/-- The modules stored by the loadModules loop are exactly those whose
script registered itself, in list order. -/
theorem loadModulesGo_modules
    (mods : List (String × String × ModuleOutcome)) :
    (loadModulesGo mods).1 =
      (mods.filter fun m => m.2.2 = ModuleOutcome.registered).map
        fun m => m.1 := by
  induction mods with
  | nil => rfl
  | cons m rest ih =>
    obtain ⟨name, path, oc⟩ := m
    cases oc <;> simp [loadModulesGo, loadModule, ih]

/-- Every module whose loading fails contributes exactly one warning log
line in the loadModules loop. -/
theorem loadModulesGo_warns
    (mods : List (String × String × ModuleOutcome)) :
    (warnsOf (loadModulesGo mods).2).length =
      (mods.filter fun m => ¬ m.2.2 = ModuleOutcome.registered).length := by
  induction mods with
  | nil => rfl
  | cons m rest ih =>
    obtain ⟨name, path, oc⟩ := m
    cases oc <;>
      simpa [loadModulesGo, loadModule, warnsOf, decide_not] using ih

/-- C7: the dynamically loaded feature scripts are optional — whatever
subset of the module list fails to load (script error or missing global),
initialize still completes and marks the app ready, the successfully
registered modules are all stored in order, and each failed module only
contributes a warning log line. -/
theorem c7_modules_optional (mods : List (String × String × ModuleOutcome)) :
    (appInitialize mods).ready = true ∧
    (appInitialize mods).modules =
      (mods.filter fun m => m.2.2 = ModuleOutcome.registered).map
        (fun m => m.1) ∧
    (warnsOf (appInitialize mods).trace).length =
      (mods.filter fun m => ¬ m.2.2 = ModuleOutcome.registered).length ∧
    (NotifKind.success, "Application chargée avec succès") ∈
      notifsOf (appInitialize mods).trace := by
  refine ⟨rfl, loadModulesGo_modules mods, ?_, ?_⟩
  · have hw := loadModulesGo_warns mods
    simp [appInitialize, loadModules, warnsOf, List.filterMap_append] at hw ⊢
    simpa [warnsOf] using hw
  · simp [appInitialize, notifsOf, List.filterMap_append]

/-- C10 witness: a doubly registered callback 5 is invoked exactly once
after one off; off on an empty listener list is the identity. -/
theorem c10_off_removes_first_match_witness :
    countCallback [⟨5, none⟩, ⟨5, some 2⟩] 5 = 2 ∧
    countCallback ([] : List Listener) 5 = 0 ∧
    (countCallback (evtOff [⟨5, none⟩, ⟨5, some 2⟩] 5) 5 = 1 ∧
     ((evtEmit (evtOff [⟨5, none⟩, ⟨5, some 2⟩] 5)
          (fun _ _ => Except.ok ()) 7).1.filter
        fun i => i.callback = 5).length = 1 ∧
     evtOff ([] : List Listener) 5 = ([] : List Listener)) :=
  ⟨by decide, by decide,
    c10_off_removes_first_match [⟨5, none⟩, ⟨5, some 2⟩] [] 5
      (fun _ _ => Except.ok ()) 7 (by decide) (by decide)⟩
